import Mathlib

/-!
Verification development for `crop_mask/deafrica_temporal_statistics.py`.

Modelling conventions.
A floating-point value is modelled as a rational number; a missing value
(NaN) is `none : Option ℚ`.  An array that is reduced along the `time`
dimension is a `List (List (Option ℚ))`: the outer list ranges over the
pixels (the flattened spatial grid), the inner list over the time axis.
A single pixel series that is known to contain no missing values is a
plain `List ℚ`.  Exceptions raised by the Python/numpy stack are the
`Except.error` branch; a Python function that falls off its end without
returning is `Option.none` at the outer level.
-/

namespace Deafrica

/-- First index at which `a` occurs in `l` (`l.length` when `a` is absent):
the first-occurrence tie-break used by `np.argmax` / `np.argmin`. -/
def firstIdxOf {α : Type} [DecidableEq α] (a : α) : List α → ℕ
  | [] => 0
  | x :: xs => if x = a then 0 else firstIdxOf a xs + 1

theorem firstIdxOf_lt_length {α : Type} [DecidableEq α] {a : α} :
    ∀ {l : List α}, a ∈ l → firstIdxOf a l < l.length := by
  intro l
  induction l with
  | nil => intro h; cases h
  | cons x xs ih =>
    intro h
    by_cases hx : x = a
    · simp [firstIdxOf, hx]
    · rw [List.mem_cons] at h
      rcases h with h | h
      · exact absurd h.symm hx
      · simpa [firstIdxOf, hx] using ih h

theorem get?_firstIdxOf {α : Type} [DecidableEq α] {a : α} :
    ∀ {l : List α}, a ∈ l → l.get? (firstIdxOf a l) = some a := by
  intro l
  induction l with
  | nil => intro h; cases h
  | cons x xs ih =>
    intro h
    by_cases hx : x = a
    · simp [firstIdxOf, hx]
    · rw [List.mem_cons] at h
      rcases h with h | h
      · exact absurd h.symm hx
      · simpa [firstIdxOf, hx] using ih h

theorem get?_lt_firstIdxOf {α : Type} [DecidableEq α] {a : α} :
    ∀ {l : List α} {j : ℕ}, j < firstIdxOf a l → l.get? j ≠ some a := by
  intro l
  induction l with
  | nil => intro j _; simp
  | cons x xs ih =>
    intro j hj
    by_cases hx : x = a
    · simp [firstIdxOf, hx] at hj
    · cases j with
      | zero => simpa using hx
      | succ j =>
        simp only [firstIdxOf, if_neg hx] at hj
        simpa using ih (Nat.lt_of_succ_lt_succ hj)

/-- `max` reduction of a nonempty list, `none` on the empty list: models a
skip-NaN `DataArray.max` over a series with no missing values. -/
def listMaxQ : List ℚ → Option ℚ
  | [] => none
  | x :: xs => some (xs.foldl max x)

/-- `min` reduction, symmetric to `listMaxQ`. -/
def listMinQ : List ℚ → Option ℚ
  | [] => none
  | x :: xs => some (xs.foldl min x)

theorem foldl_max_spec (xs : List ℚ) : ∀ a : ℚ,
    (xs.foldl max a = a ∨ xs.foldl max a ∈ xs) ∧ a ≤ xs.foldl max a ∧
      ∀ x ∈ xs, x ≤ xs.foldl max a := by
  induction xs with
  | nil => intro a; exact ⟨Or.inl rfl, le_refl a, by intro x hx; cases hx⟩
  | cons x xs ih =>
    intro a
    obtain ⟨hmem, hle, hall⟩ := ih (max a x)
    refine ⟨?_, ?_, ?_⟩
    · rcases hmem with h | h
      · rcases max_choice a x with hc | hc
        · exact Or.inl (by simpa [List.foldl, hc] using h)
        · exact Or.inr (by simp [List.foldl]; left; rw [h, hc])
      · exact Or.inr (by simp [List.foldl]; right; exact h)
    · exact le_trans (le_max_left a x) hle
    · intro y hy
      rw [List.mem_cons] at hy
      rcases hy with hy | hy
      · rw [hy]; exact le_trans (le_max_right a x) hle
      · exact hall y hy

theorem foldl_min_spec (xs : List ℚ) : ∀ a : ℚ,
    (xs.foldl min a = a ∨ xs.foldl min a ∈ xs) ∧ xs.foldl min a ≤ a ∧
      ∀ x ∈ xs, xs.foldl min a ≤ x := by
  induction xs with
  | nil => intro a; exact ⟨Or.inl rfl, le_refl a, by intro x hx; cases hx⟩
  | cons x xs ih =>
    intro a
    obtain ⟨hmem, hle, hall⟩ := ih (min a x)
    refine ⟨?_, ?_, ?_⟩
    · rcases hmem with h | h
      · rcases min_choice a x with hc | hc
        · exact Or.inl (by simpa [List.foldl, hc] using h)
        · exact Or.inr (by simp [List.foldl]; left; rw [h, hc])
      · exact Or.inr (by simp [List.foldl]; right; exact h)
    · exact le_trans hle (min_le_left a x)
    · intro y hy
      rw [List.mem_cons] at hy
      rcases hy with hy | hy
      · rw [hy]; exact le_trans hle (min_le_right a x)
      · exact hall y hy

theorem listMaxQ_spec {l : List ℚ} (h : l ≠ []) :
    ∃ m, listMaxQ l = some m ∧ m ∈ l ∧ ∀ x ∈ l, x ≤ m := by
  cases l with
  | nil => exact absurd rfl h
  | cons x xs =>
    obtain ⟨hmem, hle, hall⟩ := foldl_max_spec xs x
    refine ⟨xs.foldl max x, rfl, ?_, ?_⟩
    · rcases hmem with h | h
      · rw [h]; exact List.mem_cons_self x xs
      · exact List.mem_cons_of_mem x h
    · intro y hy
      rw [List.mem_cons] at hy
      rcases hy with hy | hy
      · exact hy ▸ hle
      · exact hall y hy

theorem listMinQ_spec {l : List ℚ} (h : l ≠ []) :
    ∃ m, listMinQ l = some m ∧ m ∈ l ∧ ∀ x ∈ l, m ≤ x := by
  cases l with
  | nil => exact absurd rfl h
  | cons x xs =>
    obtain ⟨hmem, hle, hall⟩ := foldl_min_spec xs x
    refine ⟨xs.foldl min x, rfl, ?_, ?_⟩
    · rcases hmem with h | h
      · rw [h]; exact List.mem_cons_self x xs
      · exact List.mem_cons_of_mem x h
    · intro y hy
      rw [List.mem_cons] at hy
      rcases hy with hy | hy
      · exact hy ▸ hle
      · exact hall y hy

/-- NaN-propagating subtraction on possibly missing floats. -/
def optSub : Option ℚ → Option ℚ → Option ℚ
  | some a, some b => some (a - b)
  | _, _ => none

/-! ### `allNaN_arg` (source lines 22-51)

`allNaN_arg(da, dim, stat)` masks the slices that are entirely NaN, fills
the remaining NaNs with `da.min() - 1` (for `max`) or `da.max() + 1` (for
`min`) — a *global* reduction over every pixel and time step — runs the
ordinary skip-NaN argmax/argmin, and overwrites masked slices with NaN.
When the whole array is NaN the fill value is itself NaN, the fill is a
no-op and xarray's `nanargmax`/`nanargmin` raise
`ValueError: All-NaN slice encountered`; that raise is the
`Except.error` branch below.  A `stat` other than `max`/`min` makes the
Python function fall through both `if` branches and return `None`, which
is the outer `none`. -/

/-- `da.min()` with skip-NaN semantics over the whole array. -/
def globalMin (da : List (List (Option ℚ))) : Option ℚ :=
  listMinQ da.flatten.reduceOption

/-- `da.max()` with skip-NaN semantics over the whole array. -/
def globalMax (da : List (List (Option ℚ))) : Option ℚ :=
  listMaxQ da.flatten.reduceOption

/-- `DataArray.fillna(v)` on one time slice; a missing fill value (`v = none`,
i.e. filling with NaN) is a no-op. -/
def fillnaSlice (v : Option ℚ) (s : List (Option ℚ)) : List (Option ℚ) :=
  s.map (fun o => match o with | some x => some x | none => v)

/-- `DataArray.fillna(v)` on the whole array. -/
def fillna (v : Option ℚ) (da : List (List (Option ℚ))) : List (List (Option ℚ)) :=
  da.map (fillnaSlice v)

/-- numpy `nanargmax` on one slice: index of the first maximal non-missing
value, `none` when no valid value exists. -/
def nanargmax (s : List (Option ℚ)) : Option ℕ :=
  (listMaxQ s.reduceOption).map (fun m => firstIdxOf (some m) s)

/-- numpy `nanargmin` on one slice. -/
def nanargmin (s : List (Option ℚ)) : Option ℕ :=
  (listMinQ s.reduceOption).map (fun m => firstIdxOf (some m) s)

/-- Batched `argmax(dim, skipna=True)`: xarray raises when any slice is
entirely missing, otherwise reduces each slice. -/
def argmaxE (da : List (List (Option ℚ))) : Except String (List ℕ) :=
  if ∀ s ∈ da, (nanargmax s).isSome then
    Except.ok (da.map (fun s => (nanargmax s).getD 0))
  else Except.error "All-NaN slice encountered"

/-- Batched `argmin(dim, skipna=True)`. -/
def argminE (da : List (List (Option ℚ))) : Except String (List ℕ) :=
  if ∀ s ∈ da, (nanargmin s).isSome then
    Except.ok (da.map (fun s => (nanargmin s).getD 0))
  else Except.error "All-NaN slice encountered"

/-- `.where(~mask)` on the per-pixel index layer: indices of pixels whose
slice was entirely missing are overwritten with NaN. -/
def maskWhere : List Bool → List ℕ → List (Option ℕ)
  | m :: ms, i :: rest => (if m then none else some i) :: maskWhere ms rest
  | _, _ => []

/-- Embedding of `allNaN_arg` (lines 22-51).  The reduction dimension is the
inner list, so the `dim` argument is implicit in the representation. -/
def allNaN_arg (da : List (List (Option ℚ))) (stat : String) :
    Option (Except String (List (Option ℕ))) :=
  let mask := da.map (fun s => s.all Option.isNone)
  if stat = "max" then
    some ((argmaxE (fillna ((globalMin da).map (fun m => m - 1)) da)).map
      (fun idxs => maskWhere mask idxs))
  else if stat = "min" then
    some ((argminE (fillna ((globalMax da).map (fun m => m + 1)) da)).map
      (fun idxs => maskWhere mask idxs))
  else
    none

/-! ### Per-pixel season statistics (source lines 53-196)

Inside `xr_phenology` every remaining all-NaN pixel has been replaced by
zeros (line 297), so the series handed to these functions contains no
missing values and is modelled as a plain `List ℚ` together with its
numeric time coordinate and its day-of-year vector. -/

/-- `_vpos(da) = da.max('time')` (lines 53-57). -/
def _vpos (da : List ℚ) : Option ℚ := listMaxQ da

/-- `_trough(da) = da.min('time')` (lines 67-71). -/
def _trough (da : List ℚ) : Option ℚ := listMinQ da

/-- `_aos(vpos, trough) = vpos - trough` (lines 74-78). -/
def _aos (vpos trough : Option ℚ) : Option ℚ := optSub vpos trough

/-- `da.argmax('time')` on a series with no missing values: numpy argmax,
first occurrence of the maximum. -/
def argmaxQ (da : List ℚ) : Option ℕ :=
  (listMaxQ da).map (fun m => firstIdxOf m da)

/-- `da.argmin('time')` on a series with no missing values. -/
def argminQ (da : List ℚ) : Option ℕ :=
  (listMinQ da).map (fun m => firstIdxOf m da)

/-- `_pos(da) = da.isel(time=da.argmax('time')).time.dt.dayofyear`
(lines 60-64): the day-of-year of the first time step attaining the peak. -/
def _pos (da : List ℚ) (doys : List ℕ) : Option ℕ :=
  (argmaxQ da).bind (fun k => doys.get? k)

/-- `_los(da, eos, sos)` (lines 170-182): `eos - sos`, wrapped around the
annual cycle through the last day-of-year of the record when negative.
`eos.where(los < 0)` and `sos.where(los < 0)` equal `eos` and `sos` inside
the negative branch, so the per-pixel value is the plain conditional. -/
def _los (doys : List ℕ) (eos sos : ℤ) : ℤ :=
  if 0 ≤ eos - sos then eos - sos
  else ((doys.getLast?.getD 0 : ℕ) : ℤ) + (eos - sos)

/-- `_rog(vpos, vsos, pos, sos) = (vpos - vsos) / (pos - sos)` (lines
185-189), NaN-propagating.  Caveat: a zero denominator yields `some 0`
here because rational division by zero is `0` in Lean, whereas numpy
produces `inf`/`nan`; no theorem below relies on that branch. -/
def _rog (vpos vsos pos sos : Option ℚ) : Option ℚ :=
  match vpos, vsos, pos, sos with
  | some a, some b, some c, some d => some ((a - b) / (c - d))
  | _, _, _, _ => none

/-- `_ros(veos, vpos, eos, pos) = (veos - vpos) / (eos - pos)` (lines
192-196), with the same division-by-zero caveat as `_rog`. -/
def _ros (veos vpos eos pos : Option ℚ) : Option ℚ :=
  match veos, vpos, eos, pos with
  | some a, some b, some c, some d => some ((a - b) / (c - d))
  | _, _, _, _ => none

/-! ### `_vsos` / `_veos` (source lines 81-160)

The pipeline for one pixel, for `_vsos`:

* `pos.time` is the timestamp of the (first) peak;
* `greenup = da.where(da.time < pos.time)`;
* `green_deriv = greenup.differentiate('time')` — `np.gradient` along the
  time coordinate, second-order central differences in the interior and
  one-sided differences at the two ends (`edge_order=1`), with NaN
  propagating to every entry whose stencil touches a NaN;
* `pos_green_deriv = green_deriv.where(green_deriv > 0)` — `NaN > 0` is
  `False`, so entries that are non-positive *or* NaN become NaN;
* `pos_greenup = greenup.where(pos_green_deriv)` — the condition here is a
  *float* array, and `np.where` treats NaN as truthy (`bool(nan)` is
  `True`), so an entry of `greenup` is masked only where
  `pos_green_deriv` is exactly `0.0`, which never happens
  (valid entries of `pos_green_deriv` are strictly positive);
* `median`/`distance`/`allNaN_arg(…, 'min')` select an index per pixel;
* `.astype('int16')` then `isel(time=idx)` read the value back.  Casting
  the float NaN produced for an all-missing distance slice to `int16` is
  platform-dependent in numpy (and the subsequent `isel` may raise), so
  the model leaves that branch unspecified as a distinct `Except.error`;
  no theorem below depends on it. -/

/-- The timestamp of the (first) peak of the series: `pos.time`. -/
def posTime (pixel times : List ℚ) : Option ℚ :=
  (argmaxQ pixel).bind (fun k => times.get? k)

/-- `greenup = da.where(da.time < pos.time)` for one pixel (line 96). -/
def greenup (pixel times : List ℚ) : List (Option ℚ) :=
  match posTime pixel times with
  | none => pixel.map (fun _ => none)
  | some pt => (pixel.zip times).map (fun p => if p.2 < pt then some p.1 else none)

/-- `senesce = da.where(da.time > pos.time)` for one pixel (line 140). -/
def senesce (pixel times : List ℚ) : List (Option ℚ) :=
  match posTime pixel times with
  | none => pixel.map (fun _ => none)
  | some pt => (pixel.zip times).map (fun p => if pt < p.2 then some p.1 else none)

/-- Entry `i` of `np.gradient(v, t, edge_order=1)`: one-sided difference at
the two ends, the second-order nonuniform central difference in the
interior; `none` whenever a value in the stencil is missing. -/
def gradAt (v : List (Option ℚ)) (t : List ℚ) (i : ℕ) : Option ℚ :=
  if i = 0 then
    match v.get? 0, v.get? 1, t.get? 0, t.get? 1 with
    | some (some f0), some (some f1), some t0, some t1 => some ((f1 - f0) / (t1 - t0))
    | _, _, _, _ => none
  else if i + 1 = v.length then
    match v.get? (i - 1), v.get? i, t.get? (i - 1), t.get? i with
    | some (some f0), some (some f1), some t0, some t1 => some ((f1 - f0) / (t1 - t0))
    | _, _, _, _ => none
  else
    match v.get? (i - 1), v.get? i, v.get? (i + 1),
          t.get? (i - 1), t.get? i, t.get? (i + 1) with
    | some (some fm), some (some f0), some (some fp), some tm, some t0, some tp =>
        some ((((t0 - tm) * (t0 - tm)) * fp
          + ((tp - t0) * (tp - t0) - (t0 - tm) * (t0 - tm)) * f0
          - ((tp - t0) * (tp - t0)) * fm)
          / ((tp - t0) * (t0 - tm) * ((t0 - tm) + (tp - t0))))
    | _, _, _, _, _, _ => none

/-- `differentiate('time')` on one masked pixel series (lines 98 and 142). -/
def differentiate (v : List (Option ℚ)) (t : List ℚ) : List (Option ℚ) :=
  (List.range v.length).map (gradAt v t)

/-- `d.where(d > 0)` (line 100): `NaN > 0` is `False`. -/
def filterPos (d : List (Option ℚ)) : List (Option ℚ) :=
  d.map (fun o => o.bind (fun x => if 0 < x then some x else none))

/-- `d.where(d < 0)` (line 144). -/
def filterNeg (d : List (Option ℚ)) : List (Option ℚ) :=
  d.map (fun o => o.bind (fun x => if x < 0 then some x else none))

/-- `vals.where(cond)` where `cond` is a float array (lines 102 and 146):
`np.where` truthiness — NaN (`none`) and every nonzero value are truthy,
only an exact `0.0` masks the entry. -/
def whereTruthy (cond vals : List (Option ℚ)) : List (Option ℚ) :=
  (vals.zip cond).map (fun p =>
    match p.2 with
    | none => p.1
    | some c => if c = 0 then none else p.1)

/-- Insertion of one element into a sorted list (helper for the median). -/
def insertQ (a : ℚ) : List ℚ → List ℚ
  | [] => [a]
  | x :: xs => if a ≤ x then a :: x :: xs else x :: insertQ a xs

/-- Insertion sort (helper for the median). -/
def sortQ : List ℚ → List ℚ
  | [] => []
  | x :: xs => insertQ x (sortQ xs)

/-- `median('time')` with skip-NaN semantics (lines 104 and 148): middle
element of the sorted valid values, mean of the two middle elements for an
even count, NaN when no valid value exists. -/
def nanmedian (s : List (Option ℚ)) : Option ℚ :=
  match sortQ s.reduceOption with
  | [] => none
  | v =>
      if v.length % 2 = 1 then v.get? (v.length / 2)
      else some ((v.getD (v.length / 2 - 1) 0 + v.getD (v.length / 2) 0) / 2)

/-- `pos_greenup` (lines 96-102) for one pixel: the greenup values filtered
through the (no-op, see the section comment) positive-slope condition. -/
def pos_greenup (pixel times : List ℚ) : List (Option ℚ) :=
  whereTruthy (filterPos (differentiate (greenup pixel times) times))
    (greenup pixel times)

/-- `neg_senesce` (lines 140-146) for one pixel. -/
def neg_senesce (pixel times : List ℚ) : List (Option ℚ) :=
  whereTruthy (filterNeg (differentiate (senesce pixel times) times))
    (senesce pixel times)

/-- `distance = pos_greenup - median` (lines 104-106) for one pixel, with
`fabs` applied on top in `median` mode (line 114). -/
def vsosDistance (pixel times : List ℚ) (method : String) : List (Option ℚ) :=
  let d := (pos_greenup pixel times).map
    (fun o => optSub o (nanmedian (pos_greenup pixel times)))
  if method = "median" then d.map (Option.map (fun x => |x|)) else d

/-- `distance = neg_senesce - median` (lines 148-150) for one pixel, with
`fabs` applied on top in `median` mode (line 158). -/
def veosDistance (pixel times : List ℚ) (method : String) : List (Option ℚ) :=
  let d := (neg_senesce pixel times).map
    (fun o => optSub o (nanmedian (neg_senesce pixel times)))
  if method = "median" then d.map (Option.map (fun x => |x|)) else d

/-- `idx.astype('int16')` followed by the vectorised `isel(time=idx)`
(lines 110-116): defined when every per-pixel index is a real number;
a NaN index makes the int16 cast platform-dependent, which the model
reports as a distinct error. -/
def iselVals (slices : List (List (Option ℚ))) (idxs : List (Option ℕ)) :
    Except String (List (Option ℚ)) :=
  if ∀ i ∈ idxs, i.isSome then
    Except.ok (List.zipWith (fun s oi => s.getD (oi.getD 0) none) slices idxs)
  else Except.error "NaN index: int16 cast is platform dependent"

/-- Embedding of `_vsos(da, pos, method_sos)` (lines 81-116), batched over
the pixels of the array, which share one time coordinate.  An unknown
`method_sos` leaves the Python local `idx` unbound (`NameError`), the
outer `none`. -/
def _vsos (pixels : List (List ℚ)) (times : List ℚ) (method : String) :
    Option (Except String (List (Option ℚ))) :=
  if method = "first" ∨ method = "median" then
    match allNaN_arg (pixels.map (fun p => vsosDistance p times method)) "min" with
    | some (Except.ok idxs) =>
        some (iselVals (pixels.map (fun p => pos_greenup p times)) idxs)
    | some (Except.error e) => some (Except.error e)
    | none => none
  else none

/-- Embedding of `_veos(da, pos, method_eos)` (lines 126-160), batched over
the pixels of the array. -/
def _veos (pixels : List (List ℚ)) (times : List ℚ) (method : String) :
    Option (Except String (List (Option ℚ))) :=
  if method = "last" ∨ method = "median" then
    match allNaN_arg (pixels.map (fun p => veosDistance p times method)) "min" with
    | some (Except.ok idxs) =>
        some (iselVals (pixels.map (fun p => neg_senesce p times)) idxs)
    | some (Except.error e) => some (Except.error e)
    | none => none
  else none

/-! ### `xr_phenology` orchestration (source lines 199-336) and
`temporal_statistics` (lines 339-428)

The statistic layers themselves are abstracted: `xr_phenology` always
computes all eleven layers (lines 301-311) before any selection happens,
so the selection logic is modelled over an arbitrary record of eleven
computed layers.  Python exceptions raised by the orchestration are
`PyErr`: the `TypeError` for dask input (line 263), the `ValueError`s for
bad mode strings (lines 269/272), the `KeyError` from `stats_dict[stat]`
on an unknown name (lines 329/334), the `IndexError` from `stats[0]` on
an empty request (line 329), and the `TypeError` from calling the `None`
returned by `stats_dict.get` in `temporal_statistics` (lines 408-422). -/

inductive PyErr where
  | typeError (msg : String)
  | valueError (msg : String)
  | keyError (key : String)
  | indexError
  deriving DecidableEq, Repr

/-- The eleven computed phenology layers (lines 301-311), abstracted. -/
structure StatsLayers (α : Type) where
  sos : α
  eos : α
  vsos : α
  vpos : α
  trough : α
  pos : α
  veos : α
  los : α
  aos : α
  rog : α
  ros : α
  deriving DecidableEq, Repr

/-- `stats_dict` (lines 314-326), in source order. -/
def stats_dict {α : Type} (L : StatsLayers α) : List (String × α) :=
  [("SOS", L.sos), ("EOS", L.eos), ("vSOS", L.vsos), ("vPOS", L.vpos),
   ("Trough", L.trough), ("POS", L.pos), ("vEOS", L.veos), ("LOS", L.los),
   ("AOS", L.aos), ("ROG", L.rog), ("ROS", L.ros)]

/-- `stats_dict[stat]`: dictionary subscripting, `KeyError` on a missing
key. -/
def lookupStat {α : Type} (d : List (String × α)) (k : String) : Except PyErr α :=
  match d.find? (fun p => p.1 == k) with
  | some p => Except.ok p.2
  | none => Except.error (PyErr.keyError k)

/-- `ds[stat] = value` on an xarray `Dataset`, modelled as an ordered
association list: replacement in place when the key exists, append
otherwise. -/
def dsAssign {α : Type} (ds : List (String × α)) (k : String) (v : α) :
    List (String × α) :=
  if ds.any (fun p => p.1 == k) then
    ds.map (fun p => if p.1 == k then (k, v) else p)
  else ds ++ [(k, v)]

/-- The `for stat in stats[1:]` loop of `xr_phenology` (lines 332-334). -/
def buildLoop {α : Type} (d : List (String × α)) (ds : List (String × α)) :
    List String → Except PyErr (List (String × α))
  | [] => Except.ok ds
  | s :: rest =>
      match lookupStat d s with
      | Except.error e => Except.error e
      | Except.ok v => buildLoop d (dsAssign ds s v) rest

/-- Lines 329-336: initialise the dataset from `stats[0]` then add the
remaining requested statistics.  `stats[0]` on an empty request raises
`IndexError`. -/
def buildDataset {α : Type} (d : List (String × α)) (stats : List String) :
    Except PyErr (List (String × α)) :=
  match stats with
  | [] => Except.error PyErr.indexError
  | s0 :: rest =>
      match lookupStat d s0 with
      | Except.error e => Except.error e
      | Except.ok v0 => buildLoop d [(s0, v0)] rest

/-- The eager argument validation of `xr_phenology` (lines 261-272), in
source order: dask check, then `method_sos`, then `method_eos`. -/
def checkInputs (isDask : Bool) (method_sos method_eos : String) :
    Except PyErr Unit :=
  if isDask then
    Except.error (PyErr.typeError "Dask arrays are not currently supported by this function")
  else if method_sos ≠ "median" ∧ method_sos ≠ "first" then
    Except.error (PyErr.valueError "method_sos should be either median or first")
  else if method_eos ≠ "median" ∧ method_eos ≠ "last" then
    Except.error (PyErr.valueError "method_eos should be either median or last")
  else Except.ok ()

/-- The `stats` argument: either a bare statistic name or a list. -/
inductive StatsArg where
  | single (s : String)
  | ofList (l : List String)

/-- Line 275 / line 404: `stats = stats if isinstance(stats, list) else [stats]`. -/
def normalizeStats : StatsArg → List String
  | StatsArg.single s => [s]
  | StatsArg.ofList l => l

/-- Embedding of the `xr_phenology` orchestration (lines 199-336): eager
validation, normalisation of `stats`, full computation of the eleven
layers `L` (abstracted), then selection of the requested subset. -/
def xr_phenology {α : Type} (isDask : Bool) (method_sos method_eos : String)
    (stats : StatsArg) (L : StatsLayers α) : Except PyErr (List (String × α)) :=
  match checkInputs isDask method_sos method_eos with
  | Except.error e => Except.error e
  | Except.ok _ => buildDataset (stats_dict L) (normalizeStats stats)

/-- `stats_dict.get(str(stat))` in `temporal_statistics` returns `None` for
an unknown name and the subsequent call raises
`TypeError: NoneType object is not callable`. -/
def temporalLookup {α : Type} (d : List (String × α)) (k : String) :
    Except PyErr α :=
  match d.find? (fun p => p.1 == k) with
  | some p => Except.ok p.2
  | none => Except.error (PyErr.typeError "NoneType object is not callable")

/-- The `for stat in stats[1:]` loop of `temporal_statistics` (lines 418-426). -/
def temporalLoop {α : Type} (d : List (String × α)) (ds : List (String × α)) :
    List String → Except PyErr (List (String × α))
  | [] => Except.ok ds
  | s :: rest =>
      match temporalLookup d s with
      | Except.error e => Except.error e
      | Except.ok v => temporalLoop d (dsAssign ds s v) rest

/-- Embedding of the selection logic of `temporal_statistics` (lines
403-428), over an abstract map `d` from statistic name to computed layer. -/
def temporal_statistics {α : Type} (stats : StatsArg) (d : List (String × α)) :
    Except PyErr (List (String × α)) :=
  match normalizeStats stats with
  | [] => Except.error PyErr.indexError
  | s0 :: rest =>
      match temporalLookup d s0 with
      | Except.error e => Except.error e
      | Except.ok v0 => temporalLoop d [(s0, v0)] rest

/-- The fixed phenology statistic vocabulary
{SOS, POS, EOS, Trough, vSOS, vPOS, vEOS, LOS, AOS, ROG, ROS}. -/
def phenologyStats : List String :=
  ["SOS", "POS", "EOS", "Trough", "vSOS", "vPOS", "vEOS", "LOS", "AOS", "ROG", "ROS"]

/-- In a nondecreasing list every element is bounded by the last one. -/
theorem le_getLast_of_sorted :
    ∀ (l : List ℕ), l.Chain' (· ≤ ·) → ∀ a ∈ l, a ≤ l.getLast?.getD 0 := by
  intro l
  induction l with
  | nil => intro _ a ha; cases ha
  | cons x xs ih =>
    intro hch a ha
    rw [List.chain'_cons'] at hch
    obtain ⟨hhead, htail⟩ := hch
    rw [List.mem_cons] at ha
    cases xs with
    | nil =>
      rcases ha with rfl | ha
      · simp
      · cases ha
    | cons y ys =>
      have hlast : ((x :: y :: ys).getLast?.getD 0 : ℕ)
          = ((y :: ys).getLast?.getD 0 : ℕ) := by
        rw [List.getLast?_cons_cons]
      rcases ha with rfl | ha
      · have hxy : a ≤ y := hhead y rfl
        have hy := ih htail y (List.mem_cons_self y ys)
        rw [hlast]
        exact le_trans hxy hy
      · rw [hlast]
        exact ih htail a ha

/-! ## Claim theorems -/

/-- C1 (the code, at the claim's failing input): for the pixel series
`[5, 1, 2, 9]` at times `[0, 1, 2, 3]` the greenup segment `[5, 1, 2]` has
no positive-derivative point (the filtered derivative layer is entirely
missing), yet `_vsos` does **not** resolve to a missing value: it returns
the defined value `2` in `median` mode (and `1` in `first` mode), because
`greenup.where(pos_green_deriv)` passes a float/NaN array as the `np.where`
condition, NaN is truthy, and the positive-slope restriction is a no-op. -/
theorem vsos_defined_despite_no_rising_point :
    filterPos (differentiate (greenup [5, 1, 2, 9] [0, 1, 2, 3]) [0, 1, 2, 3])
        = [none, none, none, none] ∧
    _vsos [[5, 1, 2, 9]] [0, 1, 2, 3] "median" = some (Except.ok [some 2]) ∧
    _vsos [[5, 1, 2, 9]] [0, 1, 2, 3] "first" = some (Except.ok [some 1]) := by
  refine ⟨?_, ?_, ?_⟩ <;> with_unfolding_all rfl

/-- C3: `xr_phenology` validates its arguments before any statistic
computation: a dask-backed input fails with the `TypeError`, an invalid
`method_sos` (resp. `method_eos`) fails with the `ValueError`, and in each
case the result is a single error value that does not depend on the data
or on the computed layers (no partial work). -/
theorem xr_phenology_validates_eagerly (α : Type) :
    (∀ (method_sos method_eos : String) (stats : StatsArg) (L : StatsLayers α),
      xr_phenology true method_sos method_eos stats L =
        Except.error (PyErr.typeError
          "Dask arrays are not currently supported by this function")) ∧
    (∀ (method_sos method_eos : String) (stats : StatsArg) (L : StatsLayers α),
      method_sos ≠ "median" → method_sos ≠ "first" →
      xr_phenology false method_sos method_eos stats L =
        Except.error (PyErr.valueError
          "method_sos should be either median or first")) ∧
    (∀ (method_sos method_eos : String) (stats : StatsArg) (L : StatsLayers α),
      (method_sos = "median" ∨ method_sos = "first") →
      method_eos ≠ "median" → method_eos ≠ "last" →
      xr_phenology false method_sos method_eos stats L =
        Except.error (PyErr.valueError
          "method_eos should be either median or last")) := by
  refine ⟨fun mso meo stats L => rfl, ?_, ?_⟩
  · intro mso meo stats L h1 h2
    simp [xr_phenology, checkInputs, h1, h2]
  · intro mso meo stats L h h1 h2
    rcases h with h | h <;> simp [xr_phenology, checkInputs, h, h1, h2]

/-- Witness for C3 at concrete arguments. -/
theorem xr_phenology_validates_eagerly_witness :
    ("bogus" ≠ "median") ∧
    xr_phenology true "median" "median" (StatsArg.ofList ["SOS"])
        (⟨1, 2, 3, 4, 5, 6, 7, 8, 9, 10, 11⟩ : StatsLayers ℕ) =
      Except.error (PyErr.typeError
        "Dask arrays are not currently supported by this function") ∧
    xr_phenology false "bogus" "median" (StatsArg.ofList ["SOS"])
        (⟨1, 2, 3, 4, 5, 6, 7, 8, 9, 10, 11⟩ : StatsLayers ℕ) =
      Except.error (PyErr.valueError
        "method_sos should be either median or first") ∧
    xr_phenology false "first" "bogus" (StatsArg.ofList ["SOS"])
        (⟨1, 2, 3, 4, 5, 6, 7, 8, 9, 10, 11⟩ : StatsLayers ℕ) =
      Except.error (PyErr.valueError
        "method_eos should be either median or last") :=
  ⟨by decide,
   (xr_phenology_validates_eagerly ℕ).1 "median" "median" (StatsArg.ofList ["SOS"]) _,
   (xr_phenology_validates_eagerly ℕ).2.1 "bogus" "median" (StatsArg.ofList ["SOS"]) _
     (by decide) (by decide),
   (xr_phenology_validates_eagerly ℕ).2.2 "first" "bogus" (StatsArg.ofList ["SOS"]) _
     (Or.inr rfl) (by decide) (by decide)⟩

/-- C4: for a record whose day-of-year vector is nondecreasing (a record
inside one calendar year, as the data model requires) with days ≥ 1, and
SOS/EOS day-of-years taken from the record, `_los` is nonnegative, equals
`EOS - SOS` when that is nonnegative, and equals
`(last day-of-year) + (EOS - SOS)` otherwise. -/
theorem los_nonneg_and_wraparound (doys : List ℕ) (sos eos : ℕ)
    (hchain : doys.Chain' (· ≤ ·)) (hpos : ∀ d ∈ doys, 1 ≤ d)
    (hsos : sos ∈ doys) (heos : eos ∈ doys) :
    0 ≤ _los doys (eos : ℤ) (sos : ℤ) ∧
    (0 ≤ (eos : ℤ) - (sos : ℤ) →
      _los doys (eos : ℤ) (sos : ℤ) = (eos : ℤ) - (sos : ℤ)) ∧
    ((eos : ℤ) - (sos : ℤ) < 0 →
      _los doys (eos : ℤ) (sos : ℤ)
        = ((doys.getLast?.getD 0 : ℕ) : ℤ) + ((eos : ℤ) - (sos : ℤ))) := by
  have hlast : sos ≤ doys.getLast?.getD 0 := le_getLast_of_sorted doys hchain sos hsos
  have heos1 : 1 ≤ eos := hpos eos heos
  unfold _los
  by_cases h : 0 ≤ (eos : ℤ) - (sos : ℤ)
  · rw [if_pos h]
    exact ⟨h, fun _ => rfl, fun hneg => absurd hneg (not_lt.mpr h)⟩
  · rw [if_neg h]
    push_neg at h
    have h1 : (1 : ℤ) ≤ (eos : ℤ) := by exact_mod_cast heos1
    have h2 : (sos : ℤ) ≤ ((doys.getLast?.getD 0 : ℕ) : ℤ) := by exact_mod_cast hlast
    exact ⟨by omega, fun hge => absurd h (not_lt.mpr hge), fun _ => rfl⟩

/-- Witness for C4 at a wrap-around input: SOS = 60, EOS = 30, last
day-of-year 60, so LOS = 60 + (30 - 60) = 30 ≥ 0. -/
theorem los_nonneg_and_wraparound_witness :
    0 ≤ _los [1, 30, 60] (30 : ℤ) (60 : ℤ) ∧ _los [1, 30, 60] (30 : ℤ) (60 : ℤ) = 30 :=
  ⟨(los_nonneg_and_wraparound [1, 30, 60] 60 30
      (by simp [List.chain'_cons]) (by decide) (by decide) (by decide)).1, by decide⟩

/-- C6: the amplitude layer is exactly `peak - trough`, where the peak is
the maximum of the series over time and the trough its global minimum. -/
theorem aos_eq_peak_minus_trough (da : List ℚ) (h : da ≠ []) :
    ∃ p t, _vpos da = some p ∧ _trough da = some t ∧
      _aos (_vpos da) (_trough da) = some (p - t) ∧
      p ∈ da ∧ t ∈ da ∧ ∀ x ∈ da, t ≤ x ∧ x ≤ p := by
  obtain ⟨p, hp, hpmem, hpall⟩ := listMaxQ_spec h
  obtain ⟨t, ht, htmem, htall⟩ := listMinQ_spec h
  refine ⟨p, t, hp, ht, ?_, hpmem, htmem, fun x hx => ⟨htall x hx, hpall x hx⟩⟩
  have he : _aos (_vpos da) (_trough da) = optSub (listMaxQ da) (listMinQ da) := rfl
  rw [he, hp, ht]
  rfl

/-- Witness for C6: series `[2, 5, 1]`, peak 5, trough 1, amplitude 4. -/
theorem aos_eq_peak_minus_trough_witness :
    ∃ p t, _vpos [2, 5, 1] = some p ∧ _trough [2, 5, 1] = some t ∧
      _aos (_vpos [2, 5, 1]) (_trough [2, 5, 1]) = some (p - t) ∧
      p ∈ [2, 5, 1] ∧ t ∈ [2, 5, 1] ∧ ∀ x ∈ ([2, 5, 1] : List ℚ), t ≤ x ∧ x ≤ p :=
  aos_eq_peak_minus_trough [2, 5, 1] (by decide)

/-- C7: `_vpos` is the maximum of the series over time and `_pos` is the
day-of-year of the first time step attaining that maximum (every earlier
entry is strictly below it). -/
theorem pos_is_first_peak_doy (da : List ℚ) (doys : List ℕ) (h : da ≠ [])
    (hlen : doys.length = da.length) :
    ∃ m k, _vpos da = some m ∧ argmaxQ da = some k ∧ k < da.length ∧
      da.get? k = some m ∧ (∀ x ∈ da, x ≤ m) ∧
      (∀ j, j < k → ∀ x, da.get? j = some x → x < m) ∧
      ∃ d, doys.get? k = some d ∧ _pos da doys = some d := by
  obtain ⟨m, hm, hmem, hall⟩ := listMaxQ_spec h
  have hk : argmaxQ da = some (firstIdxOf m da) := by
    simp [argmaxQ, hm]
  have hklt : firstIdxOf m da < da.length := firstIdxOf_lt_length hmem
  have hget : da.get? (firstIdxOf m da) = some m := get?_firstIdxOf hmem
  refine ⟨m, firstIdxOf m da, hm, hk, hklt, hget, hall, ?_, ?_⟩
  · intro j hj x hx
    have hne : da.get? j ≠ some m := get?_lt_firstIdxOf hj
    have hxmem : x ∈ da := List.get?_mem hx
    exact lt_of_le_of_ne (hall x hxmem) (fun he => hne (he ▸ hx))
  · have hklt2 : firstIdxOf m da < doys.length := by rw [hlen]; exact hklt
    obtain ⟨d, hd⟩ : ∃ d, doys.get? (firstIdxOf m da) = some d := by
      cases hget2 : doys.get? (firstIdxOf m da) with
      | none =>
          rw [List.get?_eq_none] at hget2
          omega
      | some d => exact ⟨d, rfl⟩
    refine ⟨d, hd, ?_⟩
    show (argmaxQ da).bind (fun k => doys.get? k) = some d
    rw [hk]
    exact hd

/-- Witness for C7: series `[1, 5, 5, 2]` with day-of-years
`[10, 20, 30, 40]`: the tied maximum 5 resolves to the first occurrence,
day 20. -/
theorem pos_is_first_peak_doy_witness :
    ∃ m k, _vpos [1, 5, 5, 2] = some m ∧ argmaxQ [1, 5, 5, 2] = some k ∧
      k < ([1, 5, 5, 2] : List ℚ).length ∧
      ([1, 5, 5, 2] : List ℚ).get? k = some m ∧
      (∀ x ∈ ([1, 5, 5, 2] : List ℚ), x ≤ m) ∧
      (∀ j, j < k → ∀ x, ([1, 5, 5, 2] : List ℚ).get? j = some x → x < m) ∧
      ∃ d, [10, 20, 30, 40].get? k = some d ∧
        _pos [1, 5, 5, 2] [10, 20, 30, 40] = some d :=
  pos_is_first_peak_doy [1, 5, 5, 2] [10, 20, 30, 40] (by decide) (by decide)

/-- C9: a bare (non-list) `stats` argument is wrapped into a one-element
list, so both `xr_phenology` and `temporal_statistics` behave identically
on a scalar name and on the corresponding singleton list. -/
theorem stats_scalar_wrapped (α : Type) (isDask : Bool)
    (method_sos method_eos s : String) (L : StatsLayers α)
    (d : List (String × α)) :
    xr_phenology isDask method_sos method_eos (StatsArg.single s) L =
      xr_phenology isDask method_sos method_eos (StatsArg.ofList [s]) L ∧
    temporal_statistics (StatsArg.single s) d =
      temporal_statistics (StatsArg.ofList [s]) d :=
  ⟨rfl, rfl⟩

/-- C10: `allNaN_arg` with a `stat` other than `max`/`min` falls through
both branches and returns `None` — no exception, no index. -/
theorem allNaN_arg_unknown_stat (da : List (List (Option ℚ))) (stat : String)
    (h1 : stat ≠ "max") (h2 : stat ≠ "min") : allNaN_arg da stat = none := by
  simp [allNaN_arg, h1, h2]

/-- Witness for C10 at `stat = "mean"`. -/
theorem allNaN_arg_unknown_stat_witness :
    ("mean" ≠ "max") ∧ allNaN_arg [[some 1, none]] "mean" = none :=
  ⟨by decide, allNaN_arg_unknown_stat [[some 1, none]] "mean" (by decide) (by decide)⟩

/-- C2 counterexample: on the empty request list `xr_phenology` raises the
`IndexError` from `stats[0]` instead of returning an (empty) output or an
unknown-statistic error. -/
theorem xr_phenology_empty_request_raises :
    xr_phenology false "median" "median" (StatsArg.ofList [])
      (⟨1, 2, 3, 4, 5, 6, 7, 8, 9, 10, 11⟩ : StatsLayers ℕ) =
    Except.error PyErr.indexError := rfl

/-- C5 counterexample: on an array whose every value is missing, the fill
value `da.min() - 1` is itself NaN, the fill is a no-op, and the argmax
raises instead of returning a missing marker for the all-missing slice. -/
theorem allNaN_arg_all_missing_array_raises :
    allNaN_arg [[none, none]] "max"
      = some (Except.error "All-NaN slice encountered") := rfl

/-! ### Support lemmas for the amended C5 -/

theorem fillnaSlice_isSome (v : ℚ) (s : List (Option ℚ)) :
    ∀ o ∈ fillnaSlice (some v) s, o.isSome := by
  intro o ho
  simp only [fillnaSlice, List.mem_map] at ho
  obtain ⟨x, _, rfl⟩ := ho
  cases x <;> rfl

theorem fillnaSlice_ne_nil (v : Option ℚ) {s : List (Option ℚ)} (h : s ≠ []) :
    fillnaSlice v s ≠ [] := by
  simp only [fillnaSlice]
  exact fun hmap => h (List.map_eq_nil_iff.mp hmap)

theorem fillnaSlice_of_all_isSome (v : Option ℚ) :
    ∀ {s : List (Option ℚ)}, (∀ o ∈ s, o.isSome) → fillnaSlice v s = s := by
  intro s
  induction s with
  | nil => intro _; rfl
  | cons x xs ih =>
    intro h
    obtain ⟨a, rfl⟩ := Option.isSome_iff_exists.mp (h x (List.mem_cons_self x xs))
    show some a :: fillnaSlice v xs = some a :: xs
    rw [ih (fun o ho => h o (List.mem_cons_of_mem _ ho))]

theorem reduceOption_ne_nil {s : List (Option ℚ)} (hne : s ≠ [])
    (h : ∀ o ∈ s, o.isSome) : s.reduceOption ≠ [] := by
  cases s with
  | nil => exact absurd rfl hne
  | cons x xs =>
    obtain ⟨a, rfl⟩ := Option.isSome_iff_exists.mp (h x (List.mem_cons_self x xs))
    simp [List.reduceOption_cons_of_some]

theorem nanargmax_isSome {s : List (Option ℚ)} (hne : s ≠ [])
    (h : ∀ o ∈ s, o.isSome) : (nanargmax s).isSome := by
  obtain ⟨m, hm, _, _⟩ := listMaxQ_spec (reduceOption_ne_nil hne h)
  simp [nanargmax, hm]

theorem nanargmin_isSome {s : List (Option ℚ)} (hne : s ≠ [])
    (h : ∀ o ∈ s, o.isSome) : (nanargmin s).isSome := by
  obtain ⟨m, hm, _, _⟩ := listMinQ_spec (reduceOption_ne_nil hne h)
  simp [nanargmin, hm]

theorem firstIdxOf_map_some :
    ∀ (s : List (Option ℚ)), (∀ o ∈ s, o.isSome) →
      ∀ m : ℚ, firstIdxOf (some m) s = firstIdxOf m s.reduceOption := by
  intro s
  induction s with
  | nil => intro _ m; rfl
  | cons x xs ih =>
    intro h m
    obtain ⟨a, rfl⟩ := Option.isSome_iff_exists.mp (h x (List.mem_cons_self x xs))
    rw [List.reduceOption_cons_of_some]
    by_cases ha : a = m
    · simp [firstIdxOf, ha]
    · have hrec := ih (fun o ho => h o (List.mem_cons_of_mem _ ho)) m
      simp [firstIdxOf, ha, hrec]

theorem nanargmax_all_some {s : List (Option ℚ)} (h : ∀ o ∈ s, o.isSome) :
    nanargmax s = argmaxQ s.reduceOption := by
  unfold nanargmax argmaxQ
  cases hred : listMaxQ s.reduceOption with
  | none => simp
  | some m => simp [firstIdxOf_map_some s h m]

theorem nanargmin_all_some {s : List (Option ℚ)} (h : ∀ o ∈ s, o.isSome) :
    nanargmin s = argminQ s.reduceOption := by
  unfold nanargmin argminQ
  cases hred : listMinQ s.reduceOption with
  | none => simp
  | some m => simp [firstIdxOf_map_some s h m]

theorem all_isNone_of_forall_none {s : List (Option ℚ)} (h : ∀ o ∈ s, o = none) :
    s.all Option.isNone = true := by
  rw [List.all_eq_true]
  intro o ho
  rw [h o ho]
  rfl

theorem all_isNone_false_of_isSome {s : List (Option ℚ)} (hne : s ≠ [])
    (h : ∀ o ∈ s, o.isSome) : s.all Option.isNone = false := by
  cases s with
  | nil => exact absurd rfl hne
  | cons x xs =>
    obtain ⟨a, rfl⟩ := Option.isSome_iff_exists.mp (h x (List.mem_cons_self x xs))
    simp

theorem maskWhere_map {β : Type} (p : β → Bool) (g : β → ℕ) :
    ∀ l : List β, maskWhere (l.map p) (l.map g)
      = l.map (fun b => if p b then none else some (g b)) := by
  intro l
  induction l with
  | nil => rfl
  | cons x xs ih => simp [maskWhere, List.map_cons, ih]

theorem argmaxE_fillna_ok (da : List (List (Option ℚ))) (v : ℚ)
    (h2 : ∀ s ∈ da, s ≠ []) :
    argmaxE (fillna (some v) da)
      = Except.ok ((fillna (some v) da).map (fun s => (nanargmax s).getD 0)) := by
  unfold argmaxE
  rw [if_pos]
  intro s hs
  simp only [fillna, List.mem_map] at hs
  obtain ⟨s0, hs0, rfl⟩ := hs
  exact nanargmax_isSome (fillnaSlice_ne_nil _ (h2 s0 hs0)) (fillnaSlice_isSome v s0)

theorem argminE_fillna_ok (da : List (List (Option ℚ))) (v : ℚ)
    (h2 : ∀ s ∈ da, s ≠ []) :
    argminE (fillna (some v) da)
      = Except.ok ((fillna (some v) da).map (fun s => (nanargmin s).getD 0)) := by
  unfold argminE
  rw [if_pos]
  intro s hs
  simp only [fillna, List.mem_map] at hs
  obtain ⟨s0, hs0, rfl⟩ := hs
  exact nanargmin_isSome (fillnaSlice_ne_nil _ (h2 s0 hs0)) (fillnaSlice_isSome v s0)

/-- C5 (amended): provided the array contains at least one non-missing
value and every slice has a nonempty time axis, `allNaN_arg` succeeds for
both `max` and `min` without raising; every all-missing slice yields a
missing marker (not index 0 and not an error), and every slice with no
missing values yields exactly the ordinary first-occurrence
argmax/argmin of its values. -/
theorem allNaN_arg_mask_and_agreement (da : List (List (Option ℚ)))
    (h1 : da.flatten.reduceOption ≠ []) (h2 : ∀ s ∈ da, s ≠ []) :
    ∃ r1 r2, allNaN_arg da "max" = some (Except.ok r1) ∧
      allNaN_arg da "min" = some (Except.ok r2) ∧
      r1.length = da.length ∧ r2.length = da.length ∧
      ∀ i s, da.get? i = some s →
        ((∀ o ∈ s, o = none) → r1.get? i = some none ∧ r2.get? i = some none) ∧
        ((∀ o ∈ s, o.isSome) →
          r1.get? i = some (argmaxQ s.reduceOption) ∧
          r2.get? i = some (argminQ s.reduceOption)) := by
  obtain ⟨mn, hmn, _, _⟩ := listMinQ_spec h1
  obtain ⟨mx, hmx, _, _⟩ := listMaxQ_spec h1
  refine ⟨da.map (fun s => if s.all Option.isNone then none
      else some ((nanargmax (fillnaSlice (some (mn - 1)) s)).getD 0)),
    da.map (fun s => if s.all Option.isNone then none
      else some ((nanargmin (fillnaSlice (some (mx + 1)) s)).getD 0)),
    ?_, ?_, by rw [List.length_map], by rw [List.length_map], ?_⟩
  · show some ((argmaxE (fillna ((globalMin da).map (fun m => m - 1)) da)).map
      (fun idxs => maskWhere (da.map (fun s => s.all Option.isNone)) idxs)) = _
    rw [show globalMin da = some mn from hmn]
    rw [show Option.map (fun m => m - 1) (some mn) = some (mn - 1) from rfl]
    rw [argmaxE_fillna_ok da (mn - 1) h2]
    show some (Except.ok (maskWhere (da.map (fun s => s.all Option.isNone))
      ((da.map (fillnaSlice (some (mn - 1)))).map (fun s => (nanargmax s).getD 0)))) = _
    rw [List.map_map, maskWhere_map]
    rfl
  · show some ((argminE (fillna ((globalMax da).map (fun m => m + 1)) da)).map
      (fun idxs => maskWhere (da.map (fun s => s.all Option.isNone)) idxs)) = _
    rw [show globalMax da = some mx from hmx]
    rw [show Option.map (fun m => m + 1) (some mx) = some (mx + 1) from rfl]
    rw [argminE_fillna_ok da (mx + 1) h2]
    show some (Except.ok (maskWhere (da.map (fun s => s.all Option.isNone))
      ((da.map (fillnaSlice (some (mx + 1)))).map (fun s => (nanargmin s).getD 0)))) = _
    rw [List.map_map, maskWhere_map]
    rfl
  · intro i s hs
    have hsmem : s ∈ da := List.get?_mem hs
    have hget1 : (da.map (fun s => if s.all Option.isNone then none
        else some ((nanargmax (fillnaSlice (some (mn - 1)) s)).getD 0))).get? i
        = some (if s.all Option.isNone then none
        else some ((nanargmax (fillnaSlice (some (mn - 1)) s)).getD 0)) := by
      rw [List.get?_map, hs]
      rfl
    have hget2 : (da.map (fun s => if s.all Option.isNone then none
        else some ((nanargmin (fillnaSlice (some (mx + 1)) s)).getD 0))).get? i
        = some (if s.all Option.isNone then none
        else some ((nanargmin (fillnaSlice (some (mx + 1)) s)).getD 0)) := by
      rw [List.get?_map, hs]
      rfl
    constructor
    · intro hnone
      rw [hget1, hget2, if_pos (all_isNone_of_forall_none hnone),
        if_pos (all_isNone_of_forall_none hnone)]
      exact ⟨rfl, rfl⟩
    · intro hsome
      have hne := h2 s hsmem
      have hmask := all_isNone_false_of_isSome hne hsome
      rw [hget1, hget2, if_neg (by rw [hmask]; exact Bool.false_ne_true),
        if_neg (by rw [hmask]; exact Bool.false_ne_true)]
      rw [fillnaSlice_of_all_isSome _ hsome, fillnaSlice_of_all_isSome _ hsome,
        nanargmax_all_some hsome, nanargmin_all_some hsome]
      obtain ⟨p, hp, _, _⟩ := listMaxQ_spec (reduceOption_ne_nil hne hsome)
      obtain ⟨q, hq, _, _⟩ := listMinQ_spec (reduceOption_ne_nil hne hsome)
      constructor
      · rw [show argmaxQ s.reduceOption = some (firstIdxOf p s.reduceOption) by
          simp [argmaxQ, hp]]
        rfl
      · rw [show argminQ s.reduceOption = some (firstIdxOf q s.reduceOption) by
          simp [argminQ, hq]]
        rfl

/-- Witness for the amended C5 at a concrete array with one mixed slice,
one all-missing slice and one fully valid slice. -/
theorem allNaN_arg_mask_and_agreement_witness :
    (([[some 1, none], [none, none], [some 0, some 2]] :
        List (List (Option ℚ))).flatten.reduceOption ≠ []) ∧
    ∃ r1 r2,
      allNaN_arg [[some 1, none], [none, none], [some 0, some 2]] "max"
        = some (Except.ok r1) ∧
      allNaN_arg [[some 1, none], [none, none], [some 0, some 2]] "min"
        = some (Except.ok r2) ∧
      r1.length = ([[some 1, none], [none, none], [some 0, some 2]] :
        List (List (Option ℚ))).length ∧
      r2.length = ([[some 1, none], [none, none], [some 0, some 2]] :
        List (List (Option ℚ))).length ∧
      ∀ i s, ([[some 1, none], [none, none], [some 0, some 2]] :
          List (List (Option ℚ))).get? i = some s →
        ((∀ o ∈ s, o = none) → r1.get? i = some none ∧ r2.get? i = some none) ∧
        ((∀ o ∈ s, o.isSome) →
          r1.get? i = some (argmaxQ s.reduceOption) ∧
          r2.get? i = some (argminQ s.reduceOption)) :=
  ⟨by decide,
   allNaN_arg_mask_and_agreement [[some 1, none], [none, none], [some 0, some 2]]
     (by decide) (by decide)⟩

/-! ### Support lemmas for the amended C2 -/

theorem lookupStat_known {α : Type} (L : StatsLayers α) (s : String)
    (hs : s ∈ phenologyStats) :
    ∃ v, lookupStat (stats_dict L) s = Except.ok v ∧ (s, v) ∈ stats_dict L := by
  simp only [phenologyStats, List.mem_cons, List.not_mem_nil, or_false] at hs
  rcases hs with rfl | rfl | rfl | rfl | rfl | rfl | rfl | rfl | rfl | rfl | rfl
  · exact ⟨L.sos, rfl, by simp [stats_dict]⟩
  · exact ⟨L.pos, rfl, by simp [stats_dict]⟩
  · exact ⟨L.eos, rfl, by simp [stats_dict]⟩
  · exact ⟨L.trough, rfl, by simp [stats_dict]⟩
  · exact ⟨L.vsos, rfl, by simp [stats_dict]⟩
  · exact ⟨L.vpos, rfl, by simp [stats_dict]⟩
  · exact ⟨L.veos, rfl, by simp [stats_dict]⟩
  · exact ⟨L.los, rfl, by simp [stats_dict]⟩
  · exact ⟨L.aos, rfl, by simp [stats_dict]⟩
  · exact ⟨L.rog, rfl, by simp [stats_dict]⟩
  · exact ⟨L.ros, rfl, by simp [stats_dict]⟩

theorem stats_dict_keys {α : Type} (L : StatsLayers α) :
    ∀ p ∈ stats_dict L, p.1 ∈ phenologyStats := by
  intro p hp
  simp only [stats_dict, List.mem_cons, List.not_mem_nil, or_false] at hp
  rcases hp with rfl | rfl | rfl | rfl | rfl | rfl | rfl | rfl | rfl | rfl | rfl <;>
    simp [phenologyStats]

theorem lookupStat_unknown {α : Type} (L : StatsLayers α) (s : String)
    (hs : s ∉ phenologyStats) :
    lookupStat (stats_dict L) s = Except.error (PyErr.keyError s) := by
  unfold lookupStat
  have hfind : (stats_dict L).find? (fun p => p.1 == s) = none := by
    rw [List.find?_eq_none]
    intro p hp hbeq
    rw [beq_iff_eq] at hbeq
    exact hs (hbeq ▸ stats_dict_keys L p hp)
  rw [hfind]

theorem dsAssign_append {α : Type} (ds : List (String × α)) (k : String) (v : α)
    (h : k ∉ ds.map Prod.fst) : dsAssign ds k v = ds ++ [(k, v)] := by
  unfold dsAssign
  rw [if_neg]
  intro hany
  rw [List.any_eq_true] at hany
  obtain ⟨p, hp, hbeq⟩ := hany
  rw [beq_iff_eq] at hbeq
  exact h (hbeq ▸ List.mem_map_of_mem Prod.fst hp)

theorem buildLoop_known {α : Type} (L : StatsLayers α) :
    ∀ (rest : List String) (acc : List (String × α)),
      (∀ s ∈ rest, s ∈ phenologyStats) →
      (acc.map Prod.fst ++ rest).Nodup →
      (∀ p ∈ acc, p ∈ stats_dict L) →
      ∃ ds, buildLoop (stats_dict L) acc rest = Except.ok ds ∧
        ds.map Prod.fst = acc.map Prod.fst ++ rest ∧
        ∀ p ∈ ds, p ∈ stats_dict L := by
  intro rest
  induction rest with
  | nil =>
    intro acc _ _ hacc
    exact ⟨acc, rfl, by simp, hacc⟩
  | cons s rest ih =>
    intro acc hvocab hnd hacc
    obtain ⟨v, hv, hvmem⟩ := lookupStat_known L s (hvocab s (List.mem_cons_self s rest))
    have hknotin : s ∉ acc.map Prod.fst := by
      intro hmem
      rw [List.nodup_append] at hnd
      exact hnd.2.2 hmem (List.mem_cons_self s rest)
    have hnd2 : ((acc ++ [(s, v)]).map Prod.fst ++ rest).Nodup := by
      rw [List.map_append]
      simpa [List.append_assoc] using hnd
    obtain ⟨ds, hds, hkeys, hmem⟩ := ih (acc ++ [(s, v)])
      (fun t ht => hvocab t (List.mem_cons_of_mem s ht)) hnd2
      (by
        intro p hp
        rcases List.mem_append.mp hp with hp | hp
        · exact hacc p hp
        · rw [List.mem_singleton] at hp
          rw [hp]
          exact hvmem)
    refine ⟨ds, ?_, ?_, hmem⟩
    · rw [show buildLoop (stats_dict L) acc (s :: rest)
          = buildLoop (stats_dict L) (dsAssign acc s v) rest by simp [buildLoop, hv]]
      rw [dsAssign_append acc s v hknotin]
      exact hds
    · rw [hkeys, List.map_append]
      simp [List.append_assoc]

theorem buildDataset_known {α : Type} (L : StatsLayers α) (stats : List String)
    (hne : stats ≠ []) (hnd : stats.Nodup)
    (hvocab : ∀ s ∈ stats, s ∈ phenologyStats) :
    ∃ ds, buildDataset (stats_dict L) stats = Except.ok ds ∧
      ds.map Prod.fst = stats ∧ ∀ p ∈ ds, p ∈ stats_dict L := by
  cases stats with
  | nil => exact absurd rfl hne
  | cons s0 rest =>
    obtain ⟨v0, hv0, hv0mem⟩ :=
      lookupStat_known L s0 (hvocab s0 (List.mem_cons_self s0 rest))
    obtain ⟨ds, hds, hkeys, hmem⟩ := buildLoop_known L rest [(s0, v0)]
      (fun t ht => hvocab t (List.mem_cons_of_mem s0 ht))
      (by simpa using hnd)
      (by
        intro p hp
        rw [List.mem_singleton] at hp
        rw [hp]
        exact hv0mem)
    refine ⟨ds, ?_, by simpa using hkeys, hmem⟩
    simp [buildDataset, hv0, hds]

theorem buildLoop_unknown {α : Type} (L : StatsLayers α) :
    ∀ (rest : List String), (∃ s ∈ rest, s ∉ phenologyStats) →
      ∀ acc, ∃ u, u ∈ rest ∧ u ∉ phenologyStats ∧
        buildLoop (stats_dict L) acc rest = Except.error (PyErr.keyError u) := by
  intro rest
  induction rest with
  | nil =>
    intro h acc
    obtain ⟨s, hs, _⟩ := h
    cases hs
  | cons s rest ih =>
    intro h acc
    by_cases hs : s ∈ phenologyStats
    · obtain ⟨v, hv, _⟩ := lookupStat_known L s hs
      have hrest : ∃ t ∈ rest, t ∉ phenologyStats := by
        obtain ⟨t, ht, htv⟩ := h
        rcases List.mem_cons.mp ht with rfl | ht2
        · exact absurd hs htv
        · exact ⟨t, ht2, htv⟩
      obtain ⟨u, hu1, hu2, hu3⟩ := ih hrest (dsAssign acc s v)
      exact ⟨u, List.mem_cons_of_mem s hu1, hu2, by simp [buildLoop, hv, hu3]⟩
    · exact ⟨s, List.mem_cons_self s rest, hs, by
        simp [buildLoop, lookupStat_unknown L s hs]⟩

theorem buildDataset_unknown {α : Type} (L : StatsLayers α) (stats : List String)
    (h : ∃ s ∈ stats, s ∉ phenologyStats) :
    ∃ u, u ∈ stats ∧ u ∉ phenologyStats ∧
      buildDataset (stats_dict L) stats = Except.error (PyErr.keyError u) := by
  cases stats with
  | nil =>
    obtain ⟨s, hs, _⟩ := h
    cases hs
  | cons s0 rest =>
    by_cases hs0 : s0 ∈ phenologyStats
    · obtain ⟨v0, hv0, _⟩ := lookupStat_known L s0 hs0
      have hrest : ∃ t ∈ rest, t ∉ phenologyStats := by
        obtain ⟨t, ht, htv⟩ := h
        rcases List.mem_cons.mp ht with rfl | ht2
        · exact absurd hs0 htv
        · exact ⟨t, ht2, htv⟩
      obtain ⟨u, hu1, hu2, hu3⟩ := buildLoop_unknown L rest hrest [(s0, v0)]
      exact ⟨u, List.mem_cons_of_mem s0 hu1, hu2, by simp [buildDataset, hv0, hu3]⟩
    · exact ⟨s0, List.mem_cons_self s0 rest, hs0, by
        simp [buildDataset, lookupStat_unknown L s0 hs0]⟩

/-- C2 (amended): with valid arguments, for every **nonempty,
duplicate-free** request list of known names, `xr_phenology` returns
exactly the requested names as keys, in the requested order, each bound to
the corresponding layer of the full eleven-statistic computation; for any
request containing a name outside the fixed vocabulary it fails with the
`KeyError` of an unknown requested name and returns no (partial) output. -/
theorem xr_phenology_selects_requested (α : Type) :
    (∀ (L : StatsLayers α) (stats : List String),
      stats ≠ [] → stats.Nodup → (∀ s ∈ stats, s ∈ phenologyStats) →
      ∃ ds, xr_phenology false "median" "median" (StatsArg.ofList stats) L
          = Except.ok ds ∧
        ds.map Prod.fst = stats ∧ ∀ p ∈ ds, p ∈ stats_dict L) ∧
    (∀ (L : StatsLayers α) (stats : List String),
      (∃ s ∈ stats, s ∉ phenologyStats) →
      ∃ u, u ∈ stats ∧ u ∉ phenologyStats ∧
        xr_phenology false "median" "median" (StatsArg.ofList stats) L
          = Except.error (PyErr.keyError u)) := by
  have hred : ∀ (L : StatsLayers α) (stats : List String),
      xr_phenology false "median" "median" (StatsArg.ofList stats) L
        = buildDataset (stats_dict L) stats := fun L stats => rfl
  constructor
  · intro L stats hne hnd hvocab
    rw [hred]
    exact buildDataset_known L stats hne hnd hvocab
  · intro L stats h
    obtain ⟨u, hu1, hu2, hu3⟩ := buildDataset_unknown L stats h
    exact ⟨u, hu1, hu2, by rw [hred]; exact hu3⟩

/-- Witness for the amended C2 at the request `["POS", "LOS"]` and at the
request `["SOS", "bogus"]` containing an unknown name. -/
theorem xr_phenology_selects_requested_witness :
    (∃ ds, xr_phenology false "median" "median" (StatsArg.ofList ["POS", "LOS"])
        (⟨1, 2, 3, 4, 5, 6, 7, 8, 9, 10, 11⟩ : StatsLayers ℕ) = Except.ok ds ∧
      ds.map Prod.fst = ["POS", "LOS"] ∧
      ∀ p ∈ ds, p ∈ stats_dict (⟨1, 2, 3, 4, 5, 6, 7, 8, 9, 10, 11⟩ : StatsLayers ℕ)) ∧
    (∃ u, u ∈ ["SOS", "bogus"] ∧ u ∉ phenologyStats ∧
      xr_phenology false "median" "median" (StatsArg.ofList ["SOS", "bogus"])
        (⟨1, 2, 3, 4, 5, 6, 7, 8, 9, 10, 11⟩ : StatsLayers ℕ)
        = Except.error (PyErr.keyError u)) :=
  ⟨(xr_phenology_selects_requested ℕ).1 ⟨1, 2, 3, 4, 5, 6, 7, 8, 9, 10, 11⟩
      ["POS", "LOS"] (by decide) (by decide) (by decide),
   (xr_phenology_selects_requested ℕ).2 ⟨1, 2, 3, 4, 5, 6, 7, 8, 9, 10, 11⟩
      ["SOS", "bogus"] ⟨"bogus", by decide, by decide⟩⟩

end Deafrica
